import Mathlib

/-!
# Verification of the boids flocking simulation (`src/main.cc`)

Shallow embedding of the flocking core of the boids program.  The C++
code works on `float`s; the embedding idealises them as exact real
numbers, the spec itself describing positions and headings as
"real-valued".  Library calls (`std::sqrt`, `std::atan2`, `std::sin`,
`std::cos` inside `sf::Transform::rotate`) are idealised as the exact
mathematical functions.

Correspondence with the source (`src/src/main.cc`):
* `distance_2d`, `rad2deg`, `kPi`   — the free helpers at the top of the file;
* `Boid`                            — the `Boid` class data (`pos_`, `rot_`);
  `size_`, `move_speed_` and the three distance factors are `private`
  fields that no code path ever assigns, so they are embedded as the
  constants the program always uses;
* `wrapCoord`, `posUpd`             — the "Update position" block of `Boid::update`
  (two successive `if`s per axis, exactly as in the source);
* `get_flockmates`                  — `Boid::get_flockmates` (a `copy_if` filter);
* `center_of_mass`                  — `Boid::center_of_mass` (an `accumulate`
  with a per-element division by the set size);
* `average_rotation`                — the `std::accumulate` in the alignment branch;
* `steer`                           — the steering part of `Boid::update`
  (everything after the position update);
* `updateAt`, `update_boids`        — `update_boids`: a sequential in-place pass
  over the array, each `boid.update(dt, boids, size)` call reading the
  same, partially updated, collection (the position write happens first
  and is visible to the flockmate scan, hence the `bs.set j b1` before
  `steer`);
* `updateUpTo`                      — the state of the collection after the first
  `k` iterations of that loop (used to reason about iteration order).
-/

namespace BoidsSim

/-- `kPi` from the source: `constexpr T kPi = T(3.1415926535897932385)`. -/
def kPi : ℝ := 3.1415926535897932385

/-- `distance_2d`: Euclidean distance computed as in the source,
`sqrt(diff.x*diff.x + diff.y*diff.y)`. -/
noncomputable def distance_2d (a b : ℝ × ℝ) : ℝ :=
  Real.sqrt ((a.1 - b.1) * (a.1 - b.1) + (a.2 - b.2) * (a.2 - b.2))

/-- `rad2deg`: `(rad * 180) / kPi`. -/
noncomputable def rad2deg (rad : ℝ) : ℝ := rad * 180 / kPi

/-- C `atan2` semantics (for non-signed-zero arguments), the
idealisation of `std::atan2(y, x)`. -/
noncomputable def atan2 (y x : ℝ) : ℝ :=
  if 0 < x then Real.arctan (y / x)
  else if x < 0 then
    (if 0 ≤ y then Real.arctan (y / x) + Real.pi else Real.arctan (y / x) - Real.pi)
  else
    (if 0 < y then Real.pi / 2 else if y < 0 then -(Real.pi / 2) else 0)

/-- The data of a `Boid` the algorithm reads and writes: position and
rotation (heading, in degrees).  The color is cosmetic and never read
by the update logic, so it is omitted. -/
structure Boid where
  pos : ℝ × ℝ
  rot : ℝ

/-- The default constructor `Boid()` value: `pos_` zero-initialised,
`rot_ = 0`. -/
instance : Inhabited Boid := ⟨⟨(0, 0), 0⟩⟩

/-- `size_ = 10` (private field, never reassigned). -/
def size_ : ℤ := 10

/-- `move_speed_ = 200` (private field, never reassigned). -/
def move_speed_ : ℤ := 200

/-- `kSeparationDistanceFactor = 3`. -/
def kSeparationDistanceFactor : ℤ := 3

/-- `kAlignmentDistanceFactor = 9`. -/
def kAlignmentDistanceFactor : ℤ := 9

/-- `kCohesionDistanceFactor = 14`. -/
def kCohesionDistanceFactor : ℤ := 14

/-- `Boid::cohesion_distance() = size_ * kCohesionDistanceFactor`. -/
def cohesion_distance : ℤ := size_ * kCohesionDistanceFactor

/-- `Boid::alignment_distance() = size_ * kAlignmentDistanceFactor`. -/
def alignment_distance : ℤ := size_ * kAlignmentDistanceFactor

/-- `Boid::separation_distance() = size_ * kSeparationDistanceFactor`. -/
def separation_distance : ℤ := size_ * kSeparationDistanceFactor

/-- One axis of the wrap in the position-update block of `Boid::update`:
two successive `if`s, `if (c < 0) c = bound;` then `if (c > bound) c = 0;`. -/
noncomputable def wrapCoord (bound x : ℝ) : ℝ :=
  let x1 := if x < 0 then bound else x
  if x1 > bound then 0 else x1

/-- The "Update position" block of `Boid::update`: move by
`rotation.transformPoint(0, -move_speed_*dt)` (SFML rotates by `rot_`
degrees, so the displacement is `(s·sin θ, −s·cos θ)` with
`θ = rot_·π/180`), then wrap both axes. -/
noncomputable def posUpd (dt : ℝ) (w : ℝ × ℝ) (b : Boid) : Boid :=
  let kDeltaSpeed := (move_speed_ : ℝ) * dt
  let rad := b.rot * Real.pi / 180
  let x := b.pos.1 + kDeltaSpeed * Real.sin rad
  let y := b.pos.2 - kDeltaSpeed * Real.cos rad
  { b with pos := (wrapCoord w.1 x, wrapCoord w.2 y) }

/-- `Boid::get_flockmates(boids, distance)`: the members of `boids`
whose distance to `p` (the calling boid's `pos_`) is strictly below
`distance`, in input order (`std::copy_if`). -/
noncomputable def get_flockmates (p : ℝ × ℝ) (boids : List Boid) (d : ℤ) : List Boid :=
  match boids with
  | [] => []
  | m :: rest =>
      if distance_2d p m.pos < (d : ℝ) then m :: get_flockmates p rest d
      else get_flockmates p rest d

/-- `Boid::center_of_mass(boids)`: `std::accumulate` from `(0,0)`,
adding `pos/size()` member-wise (the division happens per element, as
in the source lambda). -/
noncomputable def center_of_mass (boids : List Boid) : ℝ × ℝ :=
  boids.foldl
    (fun r m => (r.1 + m.pos.1 / (boids.length : ℝ), r.2 + m.pos.2 / (boids.length : ℝ)))
    (0, 0)

/-- The `std::accumulate` of the alignment branch: running sum of
`rot_ / kAlignmentFlockmates.size()` starting from `0`. -/
noncomputable def average_rotation (boids : List Boid) : ℝ :=
  boids.foldl (fun r m => r + m.rot / (boids.length : ℝ)) 0

/-- The cohesion flockmates of `b` inside `Boid::update`:
`get_flockmates(boids, cohesion_distance())`. -/
noncomputable def cohFM (b : Boid) (bs : List Boid) : List Boid :=
  get_flockmates b.pos bs cohesion_distance

/-- The alignment flockmates: `get_flockmates(kCohesionFlockmates,
alignment_distance())` — a re-filter of the cohesion result. -/
noncomputable def aliFM (b : Boid) (bs : List Boid) : List Boid :=
  get_flockmates b.pos (cohFM b bs) alignment_distance

/-- The separation flockmates: `get_flockmates(kAlignmentFlockmates,
separation_distance())` — a re-filter of the alignment result. -/
noncomputable def sepFM (b : Boid) (bs : List Boid) : List Boid :=
  get_flockmates b.pos (aliFM b bs) separation_distance

/-- The steering part of `Boid::update` (everything after the position
update), acting on the already position-updated boid `b` and the
candidate collection `bs` (which, in the program, contains `b` itself
at the caller's index): early return when the cohesion tier is a
singleton, else the separation / alignment / cohesion `if`/`else if`
chain, each branch writing `rot_` only. -/
noncomputable def steer (b : Boid) (bs : List Boid) : Boid :=
  if (cohFM b bs).length = 1 then b
  else if 1 < (sepFM b bs).length then
    { b with rot :=
        rad2deg (atan2 ((center_of_mass (sepFM b bs)).2 - b.pos.2)
                       ((center_of_mass (sepFM b bs)).1 - b.pos.1)) + 90 + 180 }
  else if 1 < (aliFM b bs).length then
    { b with rot := average_rotation (aliFM b bs) }
  else if 1 < (cohFM b bs).length then
    { b with rot :=
        rad2deg (atan2 ((center_of_mass (cohFM b bs)).2 - b.pos.2)
                       ((center_of_mass (cohFM b bs)).1 - b.pos.1)) + 90 }
  else b

/-- One iteration of the `update_boids` loop at index `j`:
`boids[j].update(dt, boids, window_size)`.  The member function first
mutates `pos_` in place — visible through the aliased array to its own
flockmate scan — and then computes the new heading from that partially
updated collection. -/
noncomputable def updateAt (dt : ℝ) (w : ℝ × ℝ) (bs : List Boid) (j : ℕ) : List Boid :=
  let b1 := posUpd dt w (bs.getD j default)
  let bs1 := bs.set j b1
  bs1.set j (steer b1 bs1)

/-- The state of the collection after the first `k` iterations of the
`update_boids` loop. -/
noncomputable def updateUpTo (dt : ℝ) (w : ℝ × ℝ) (bs : List Boid) (k : ℕ) : List Boid :=
  (List.range k).foldl (updateAt dt w) bs

/-- `update_boids`: the full sequential in-place pass over the
collection, in index order. -/
noncomputable def update_boids (dt : ℝ) (w : ℝ × ℝ) (bs : List Boid) : List Boid :=
  updateUpTo dt w bs bs.length

/-! ## Basic lemmas about the embedding -/

theorem distance_2d_self (p : ℝ × ℝ) : distance_2d p p = 0 := by
  simp [distance_2d]

theorem distance_2d_eval (x1 y1 x2 y2 d : ℝ) (hd : 0 ≤ d)
    (h : (x1 - x2) * (x1 - x2) + (y1 - y2) * (y1 - y2) = d * d) :
    distance_2d (x1, y1) (x2, y2) = d := by
  simp only [distance_2d]
  rw [h, Real.sqrt_mul_self hd]

theorem mem_get_flockmates {a : Boid} {p : ℝ × ℝ} {l : List Boid} {d : ℤ} :
    a ∈ get_flockmates p l d ↔ a ∈ l ∧ distance_2d p a.pos < (d : ℝ) := by
  induction l with
  | nil => simp [get_flockmates]
  | cons m rest ih =>
      by_cases hm : distance_2d p m.pos < (d : ℝ)
      · simp only [get_flockmates, if_pos hm, List.mem_cons, ih]
        constructor
        · rintro (rfl | ⟨hmem, hlt⟩)
          · exact ⟨Or.inl rfl, hm⟩
          · exact ⟨Or.inr hmem, hlt⟩
        · rintro ⟨rfl | hmem, hlt⟩
          · exact Or.inl rfl
          · exact Or.inr ⟨hmem, hlt⟩
      · simp only [get_flockmates, if_neg hm, List.mem_cons, ih]
        constructor
        · rintro ⟨hmem, hlt⟩
          exact ⟨Or.inr hmem, hlt⟩
        · rintro ⟨rfl | hmem, hlt⟩
          · exact absurd hlt hm
          · exact ⟨hmem, hlt⟩

theorem get_flockmates_subset (p : ℝ × ℝ) (l : List Boid) (d : ℤ) :
    get_flockmates p l d ⊆ l :=
  fun _ ha => (mem_get_flockmates.mp ha).1

/-! Wrap behaviour, one axis. -/

theorem wrapCoord_of_neg {bound x : ℝ} (hx : x < 0) :
    wrapCoord bound x = bound := by
  simp only [wrapCoord, if_pos hx]
  rw [if_neg (lt_irrefl bound)]

theorem wrapCoord_of_gt {bound x : ℝ} (hx0 : 0 ≤ x) (hx : bound < x) :
    wrapCoord bound x = 0 := by
  simp only [wrapCoord, if_neg (not_lt.mpr hx0)]
  rw [if_pos hx]

theorem wrapCoord_of_mem {bound x : ℝ} (hx0 : 0 ≤ x) (hx : x ≤ bound) :
    wrapCoord bound x = x := by
  simp only [wrapCoord, if_neg (not_lt.mpr hx0)]
  rw [if_neg (not_lt.mpr hx)]

theorem wrapCoord_mem {bound : ℝ} (hb : 0 ≤ bound) (x : ℝ) :
    0 ≤ wrapCoord bound x ∧ wrapCoord bound x ≤ bound := by
  by_cases hx : x < 0
  · rw [wrapCoord_of_neg hx]; exact ⟨hb, le_refl bound⟩
  · push_neg at hx
    by_cases hx2 : bound < x
    · rw [wrapCoord_of_gt hx hx2]; exact ⟨le_refl 0, hb⟩
    · push_neg at hx2
      rw [wrapCoord_of_mem hx hx2]; exact ⟨hx, hx2⟩

/-! Fold lemmas for the two `std::accumulate`s. -/

theorem foldl_add_div (f : Boid → ℝ) (c : ℝ) :
    ∀ (l : List Boid) (r0 : ℝ),
      l.foldl (fun r m => r + f m / c) r0 = r0 + (l.map f).sum / c := by
  intro l
  induction l with
  | nil => intro r0; simp
  | cons a l ih =>
      intro r0
      simp only [List.foldl_cons, List.map_cons, List.sum_cons, ih]
      rw [add_div]
      ring

theorem com_foldl (c : ℝ) :
    ∀ (l : List Boid) (r0 : ℝ × ℝ),
      l.foldl (fun r m => (r.1 + m.pos.1 / c, r.2 + m.pos.2 / c)) r0 =
        (r0.1 + (l.map (fun m => m.pos.1)).sum / c,
         r0.2 + (l.map (fun m => m.pos.2)).sum / c) := by
  intro l
  induction l with
  | nil => intro r0; simp
  | cons a l ih =>
      intro r0
      simp only [List.foldl_cons, List.map_cons, List.sum_cons, ih]
      rw [add_div, add_div, Prod.mk.injEq]
      exact ⟨by ring, by ring⟩

theorem center_of_mass_eq (l : List Boid) :
    center_of_mass l = ((l.map (fun m => m.pos.1)).sum / (l.length : ℝ),
                        (l.map (fun m => m.pos.2)).sum / (l.length : ℝ)) := by
  simp [center_of_mass, com_foldl]

theorem average_rotation_eq (l : List Boid) :
    average_rotation l = (l.map Boid.rot).sum / (l.length : ℝ) := by
  simp [average_rotation, foldl_add_div]

/-! Structural facts about `steer` and `posUpd`. -/

theorem steer_pos (b : Boid) (bs : List Boid) : (steer b bs).pos = b.pos := by
  unfold steer
  repeat' split
  all_goals rfl

theorem posUpd_rot (dt : ℝ) (w : ℝ × ℝ) (b : Boid) : (posUpd dt w b).rot = b.rot := rfl

theorem posUpd_pos (dt : ℝ) (w : ℝ × ℝ) (b : Boid) :
    (posUpd dt w b).pos =
      (wrapCoord w.1 (b.pos.1 + (move_speed_ : ℝ) * dt * Real.sin (b.rot * Real.pi / 180)),
       wrapCoord w.2 (b.pos.2 - (move_speed_ : ℝ) * dt * Real.cos (b.rot * Real.pi / 180))) := rfl

/-- With `dt = 0` and the position already inside the bounds, the
position update is the identity. -/
theorem posUpd_zero {w : ℝ × ℝ} {b : Boid}
    (h1 : 0 ≤ b.pos.1) (h2 : b.pos.1 ≤ w.1) (h3 : 0 ≤ b.pos.2) (h4 : b.pos.2 ≤ w.2) :
    posUpd 0 w b = b := by
  unfold posUpd
  simp only [mul_zero, zero_mul, add_zero, sub_zero]
  rw [wrapCoord_of_mem h1 h2, wrapCoord_of_mem h3 h4]

/-! Self-membership and nesting of the three tiers. -/

theorem radii_pos : (0:ℝ) < (separation_distance : ℝ) ∧
    (0:ℝ) < (alignment_distance : ℝ) ∧ (0:ℝ) < (cohesion_distance : ℝ) := by
  norm_num [separation_distance, alignment_distance, cohesion_distance, size_,
    kSeparationDistanceFactor, kAlignmentDistanceFactor, kCohesionDistanceFactor]

theorem mem_cohFM_self {b : Boid} {bs : List Boid} (hb : b ∈ bs) : b ∈ cohFM b bs :=
  mem_get_flockmates.mpr ⟨hb, by rw [distance_2d_self]; exact radii_pos.2.2⟩

theorem mem_aliFM_self {b : Boid} {bs : List Boid} (hb : b ∈ bs) : b ∈ aliFM b bs :=
  mem_get_flockmates.mpr ⟨mem_cohFM_self hb, by rw [distance_2d_self]; exact radii_pos.2.1⟩

theorem mem_sepFM_self {b : Boid} {bs : List Boid} (hb : b ∈ bs) : b ∈ sepFM b bs :=
  mem_get_flockmates.mpr ⟨mem_aliFM_self hb, by rw [distance_2d_self]; exact radii_pos.1⟩

theorem sepFM_subset_aliFM (b : Boid) (bs : List Boid) : sepFM b bs ⊆ aliFM b bs :=
  get_flockmates_subset ..

theorem aliFM_subset_cohFM (b : Boid) (bs : List Boid) : aliFM b bs ⊆ cohFM b bs :=
  get_flockmates_subset ..

theorem cohFM_subset (b : Boid) (bs : List Boid) : cohFM b bs ⊆ bs :=
  get_flockmates_subset ..

/-! ## Claim theorems -/

/-- **C6** — After the displacement is added, each axis is wrapped
independently: a coordinate strictly below 0 becomes the bound, one
strictly above the bound becomes 0, and one in `[0, bound]` (the bound
itself included) is left unchanged; with bound 800, `-1 ↦ 800`,
`801 ↦ 0`, and `800` stays `800`. -/
theorem wrap_behavior (bound x : ℝ) (hb : 0 ≤ bound) :
    (∀ (dt : ℝ) (w : ℝ × ℝ) (b : Boid),
      (posUpd dt w b).pos =
        (wrapCoord w.1 (b.pos.1 + (move_speed_ : ℝ) * dt * Real.sin (b.rot * Real.pi / 180)),
         wrapCoord w.2 (b.pos.2 - (move_speed_ : ℝ) * dt * Real.cos (b.rot * Real.pi / 180)))) ∧
    (x < 0 → wrapCoord bound x = bound) ∧
    (bound < x → wrapCoord bound x = 0) ∧
    (0 ≤ x → x ≤ bound → wrapCoord bound x = x) ∧
    wrapCoord 800 (-1) = 800 ∧ wrapCoord 800 801 = 0 ∧ wrapCoord 800 800 = 800 := by
  refine ⟨fun dt w b => posUpd_pos dt w b, fun hx => wrapCoord_of_neg hx,
    fun hx => wrapCoord_of_gt (le_of_lt (lt_of_le_of_lt hb hx)) hx,
    fun h0 h1 => wrapCoord_of_mem h0 h1,
    wrapCoord_of_neg (by norm_num),
    wrapCoord_of_gt (by norm_num) (by norm_num),
    wrapCoord_of_mem (by norm_num) (by norm_num)⟩

theorem wrap_behavior_witness :
    (0:ℝ) ≤ 800 ∧
    wrapCoord 800 (-1) = 800 ∧ wrapCoord 800 801 = 0 ∧ wrapCoord 800 800 = 800 :=
  ⟨by norm_num, (wrap_behavior 800 0 (by norm_num)).2.2.2.2⟩

/-- **C7** — For every agent in every candidate population, the tiers
nest: separation ⊆ alignment ⊆ cohesion ⊆ population; the agent itself
is in each tier (self-distance 0 beats each positive radius), so every
tier has at least one member. -/
theorem tier_nesting_and_self_membership (b : Boid) (bs : List Boid) (hb : b ∈ bs) :
    sepFM b bs ⊆ aliFM b bs ∧ aliFM b bs ⊆ cohFM b bs ∧ cohFM b bs ⊆ bs ∧
    b ∈ sepFM b bs ∧ b ∈ aliFM b bs ∧ b ∈ cohFM b bs ∧
    1 ≤ (sepFM b bs).length ∧ 1 ≤ (aliFM b bs).length ∧ 1 ≤ (cohFM b bs).length :=
  ⟨sepFM_subset_aliFM b bs, aliFM_subset_cohFM b bs, cohFM_subset b bs,
   mem_sepFM_self hb, mem_aliFM_self hb, mem_cohFM_self hb,
   List.length_pos.mpr (List.ne_nil_of_mem (mem_sepFM_self hb)),
   List.length_pos.mpr (List.ne_nil_of_mem (mem_aliFM_self hb)),
   List.length_pos.mpr (List.ne_nil_of_mem (mem_cohFM_self hb))⟩

theorem tier_nesting_and_self_membership_witness :
    (⟨(5, 5), 0⟩ : Boid) ∈ [(⟨(5, 5), 0⟩ : Boid)] ∧
    (⟨(5, 5), 0⟩ : Boid) ∈ sepFM ⟨(5, 5), 0⟩ [⟨(5, 5), 0⟩] :=
  ⟨List.mem_singleton.mpr rfl,
   (tier_nesting_and_self_membership ⟨(5, 5), 0⟩ [⟨(5, 5), 0⟩]
      (List.mem_singleton.mpr rfl)).2.2.2.1⟩

/-- **C8** — Every tier on which `center_of_mass` is invoked inside
`update` is non-empty, so the division by the cardinality never divides
by zero: the cohesion tier has ≥ 2 members past the early return, and
the alignment and separation tiers always contain the agent itself. -/
theorem center_of_mass_never_div_zero (b : Boid) (bs : List Boid) (hb : b ∈ bs) :
    ((cohFM b bs).length ≠ 1 → 2 ≤ (cohFM b bs).length) ∧
    1 ≤ (aliFM b bs).length ∧ 1 ≤ (sepFM b bs).length ∧
    ((cohFM b bs).length : ℝ) ≠ 0 ∧ ((aliFM b bs).length : ℝ) ≠ 0 ∧
    ((sepFM b bs).length : ℝ) ≠ 0 := by
  have hcoh : 1 ≤ (cohFM b bs).length :=
    List.length_pos.mpr (List.ne_nil_of_mem (mem_cohFM_self hb))
  have hali : 1 ≤ (aliFM b bs).length :=
    List.length_pos.mpr (List.ne_nil_of_mem (mem_aliFM_self hb))
  have hsep : 1 ≤ (sepFM b bs).length :=
    List.length_pos.mpr (List.ne_nil_of_mem (mem_sepFM_self hb))
  refine ⟨fun hne => ?_, hali, hsep, ?_, ?_, ?_⟩
  · omega
  · exact_mod_cast Nat.one_le_iff_ne_zero.mp hcoh
  · exact_mod_cast Nat.one_le_iff_ne_zero.mp hali
  · exact_mod_cast Nat.one_le_iff_ne_zero.mp hsep

theorem center_of_mass_never_div_zero_witness :
    (⟨(5, 5), 0⟩ : Boid) ∈ [(⟨(5, 5), 0⟩ : Boid)] ∧
    ((sepFM (⟨(5, 5), 0⟩ : Boid) [⟨(5, 5), 0⟩]).length : ℝ) ≠ 0 :=
  ⟨List.mem_singleton.mpr rfl,
   (center_of_mass_never_div_zero ⟨(5, 5), 0⟩ [⟨(5, 5), 0⟩]
      (List.mem_singleton.mpr rfl)).2.2.2.2.2⟩

/-- **C9** — `center_of_mass` of a non-empty set is the coordinate-wise
arithmetic mean of the positions; on a singleton it returns exactly the
member's position. -/
theorem center_of_mass_is_mean (bs : List Boid) (h : bs ≠ []) :
    center_of_mass bs = ((bs.map (fun m => m.pos.1)).sum / (bs.length : ℝ),
                         (bs.map (fun m => m.pos.2)).sum / (bs.length : ℝ)) ∧
    ∀ b : Boid, center_of_mass [b] = b.pos := by
  refine ⟨center_of_mass_eq bs, fun b => ?_⟩
  rw [center_of_mass_eq]
  simp

theorem center_of_mass_is_mean_witness :
    ([(⟨(3, 4), 7⟩ : Boid)] : List Boid) ≠ [] ∧
    center_of_mass [(⟨(3, 4), 7⟩ : Boid)] = (3, 4) :=
  ⟨by simp,
   (center_of_mass_is_mean [(⟨(3, 4), 7⟩ : Boid)] (by simp)).2 ⟨(3, 4), 7⟩⟩

/-! Branch lemmas for `steer`, one per path of the `if`/`else if` chain. -/

theorem steer_singleton {b : Boid} {bs : List Boid}
    (h : (cohFM b bs).length = 1) : steer b bs = b := by
  unfold steer
  rw [if_pos h]

theorem steer_sep {b : Boid} {bs : List Boid}
    (h1 : (cohFM b bs).length ≠ 1) (h2 : 1 < (sepFM b bs).length) :
    steer b bs =
      { b with rot :=
          rad2deg (atan2 ((center_of_mass (sepFM b bs)).2 - b.pos.2)
                         ((center_of_mass (sepFM b bs)).1 - b.pos.1)) + 90 + 180 } := by
  unfold steer
  rw [if_neg h1, if_pos h2]

theorem steer_ali {b : Boid} {bs : List Boid}
    (h1 : (cohFM b bs).length ≠ 1) (h2 : ¬ 1 < (sepFM b bs).length)
    (h3 : 1 < (aliFM b bs).length) :
    steer b bs = { b with rot := average_rotation (aliFM b bs) } := by
  unfold steer
  rw [if_neg h1, if_neg h2, if_pos h3]

theorem steer_coh {b : Boid} {bs : List Boid}
    (h1 : (cohFM b bs).length ≠ 1) (h2 : ¬ 1 < (sepFM b bs).length)
    (h3 : ¬ 1 < (aliFM b bs).length) (h4 : 1 < (cohFM b bs).length) :
    steer b bs =
      { b with rot :=
          rad2deg (atan2 ((center_of_mass (cohFM b bs)).2 - b.pos.2)
                         ((center_of_mass (cohFM b bs)).1 - b.pos.1)) + 90 } := by
  unfold steer
  rw [if_neg h1, if_neg h2, if_neg h3, if_pos h4]

/-- **C3** — After the position update: a singleton cohesion tier means
no steering at all (the whole boid, heading included, is returned
unchanged); otherwise the heading is assigned by exactly one branch,
chosen by strict short-circuit priority separation → alignment →
cohesion, the cohesion fallback really firing because the cohesion
tier then has more than one member. -/
theorem steering_priority_structure (b : Boid) (bs : List Boid) (hb : b ∈ bs) :
    ((cohFM b bs).length = 1 → steer b bs = b) ∧
    ((cohFM b bs).length ≠ 1 →
      1 < (cohFM b bs).length ∧
      (steer b bs).rot =
        (if 1 < (sepFM b bs).length then
          rad2deg (atan2 ((center_of_mass (sepFM b bs)).2 - b.pos.2)
                         ((center_of_mass (sepFM b bs)).1 - b.pos.1)) + 90 + 180
         else if 1 < (aliFM b bs).length then
          average_rotation (aliFM b bs)
         else
          rad2deg (atan2 ((center_of_mass (cohFM b bs)).2 - b.pos.2)
                         ((center_of_mass (cohFM b bs)).1 - b.pos.1)) + 90)) := by
  refine ⟨fun h => steer_singleton h, fun h1 => ?_⟩
  have hpos : 1 ≤ (cohFM b bs).length :=
    List.length_pos.mpr (List.ne_nil_of_mem (mem_cohFM_self hb))
  have h4 : 1 < (cohFM b bs).length := by omega
  refine ⟨h4, ?_⟩
  by_cases h2 : 1 < (sepFM b bs).length
  · rw [if_pos h2, steer_sep h1 h2]
  · rw [if_neg h2]
    by_cases h3 : 1 < (aliFM b bs).length
    · rw [if_pos h3, steer_ali h1 h2 h3]
    · rw [if_neg h3, steer_coh h1 h2 h3 h4]

/-- **C4** — The separation branch writes
`rad2deg(atan2(Δy, Δx)) + 90 + 180` (away from the separation-tier
centre of mass) and the cohesion branch writes
`rad2deg(atan2(Δy, Δx)) + 90` (toward the cohesion-tier centre, no
`+180`); in both cases the exact sum is stored with no renormalisation
into a canonical range. -/
theorem separation_and_cohesion_heading_formulas (b : Boid) (bs : List Boid)
    (h1 : (cohFM b bs).length ≠ 1) :
    (1 < (sepFM b bs).length →
      (steer b bs).rot =
        rad2deg (atan2 ((center_of_mass (sepFM b bs)).2 - b.pos.2)
                       ((center_of_mass (sepFM b bs)).1 - b.pos.1)) + 90 + 180) ∧
    (¬ 1 < (sepFM b bs).length → ¬ 1 < (aliFM b bs).length →
      1 < (cohFM b bs).length →
      (steer b bs).rot =
        rad2deg (atan2 ((center_of_mass (cohFM b bs)).2 - b.pos.2)
                       ((center_of_mass (cohFM b bs)).1 - b.pos.1)) + 90) := by
  constructor
  · intro h2
    rw [steer_sep h1 h2]
  · intro h2 h3 h4
    rw [steer_coh h1 h2 h3 h4]

/-- **C5** — The alignment branch stores the plain linear arithmetic
mean `Σ rot / count` over the whole alignment tier (the agent included,
by self-membership), with no circular-mean correction. -/
theorem alignment_branch_linear_mean (b : Boid) (bs : List Boid) (hb : b ∈ bs)
    (h1 : (cohFM b bs).length ≠ 1) (h2 : ¬ 1 < (sepFM b bs).length)
    (h3 : 1 < (aliFM b bs).length) :
    (steer b bs).rot = ((aliFM b bs).map Boid.rot).sum / ((aliFM b bs).length : ℝ) ∧
    b ∈ aliFM b bs := by
  rw [steer_ali h1 h2 h3]
  exact ⟨average_rotation_eq (aliFM b bs), mem_aliFM_self hb⟩

/-! Lemmas about the `update_boids` loop. -/

theorem updateUpTo_zero (dt : ℝ) (w : ℝ × ℝ) (bs : List Boid) :
    updateUpTo dt w bs 0 = bs := rfl

theorem updateUpTo_succ (dt : ℝ) (w : ℝ × ℝ) (bs : List Boid) (k : ℕ) :
    updateUpTo dt w bs (k + 1) = updateAt dt w (updateUpTo dt w bs k) k := by
  unfold updateUpTo
  rw [List.range_succ, List.foldl_append]
  rfl

theorem length_updateAt (dt : ℝ) (w : ℝ × ℝ) (bs : List Boid) (j : ℕ) :
    (updateAt dt w bs j).length = bs.length := by
  simp [updateAt]

theorem length_updateUpTo (dt : ℝ) (w : ℝ × ℝ) (bs : List Boid) :
    ∀ k, (updateUpTo dt w bs k).length = bs.length := by
  intro k
  induction k with
  | zero => rfl
  | succ k ih => rw [updateUpTo_succ, length_updateAt, ih]

theorem updateAt_getD_ne (dt : ℝ) (w : ℝ × ℝ) (bs : List Boid) {j m : ℕ}
    (h : j ≠ m) (d : Boid) : (updateAt dt w bs j).getD m d = bs.getD m d := by
  simp [updateAt, List.getD_eq_getElem?_getD, List.getElem?_set_ne h]

theorem updateAt_getD_eq (dt : ℝ) (w : ℝ × ℝ) (bs : List Boid) {j : ℕ}
    (hj : j < bs.length) (d : Boid) :
    (updateAt dt w bs j).getD j d =
      steer (posUpd dt w (bs.getD j default)) (bs.set j (posUpd dt w (bs.getD j default))) := by
  rw [updateAt, List.getD_eq_getElem?_getD, List.getElem?_set_self]
  · simp
  · simpa using hj

/-- Entries the loop has not reached yet still hold their previous-tick
values. -/
theorem updateUpTo_getD_ge (dt : ℝ) (w : ℝ × ℝ) (bs : List Boid) (d : Boid) :
    ∀ {k m : ℕ}, k ≤ m → (updateUpTo dt w bs k).getD m d = bs.getD m d := by
  intro k
  induction k with
  | zero => intro m _; rfl
  | succ k ih =>
      intro m hm
      rw [updateUpTo_succ, updateAt_getD_ne dt w _ (by omega) d, ih (by omega)]

/-- An entry the loop has already passed is never touched again. -/
theorem updateUpTo_getD_mono (dt : ℝ) (w : ℝ × ℝ) (bs : List Boid) (d : Boid)
    {i k : ℕ} (hi : i < k) :
    ∀ {l : ℕ}, k ≤ l → (updateUpTo dt w bs l).getD i d = (updateUpTo dt w bs k).getD i d := by
  intro l
  induction l with
  | zero => intro hl; omega
  | succ l ih =>
      intro hl
      rcases Nat.lt_or_ge k (l + 1) with hk | hk
      · rw [updateUpTo_succ, updateAt_getD_ne dt w _ (by omega) d, ih (by omega)]
      · have : k = l + 1 := by omega
        rw [this]

/-- **C2** — One tick is a sequential in-place pass in index order over
the one shared collection: step `j` feeds `updateAt` the state
`updateUpTo … j`, in which every index `i < j` already holds its final
this-tick value while every index `m ≥ j` (agent `j` itself included)
still holds its previous-tick value. -/
theorem sequential_inplace_update_order (dt : ℝ) (w : ℝ × ℝ) (bs : List Boid)
    (i j : ℕ) (hij : i < j) (hj : j < bs.length) :
    update_boids dt w bs = updateUpTo dt w bs bs.length ∧
    updateUpTo dt w bs (j + 1) = updateAt dt w (updateUpTo dt w bs j) j ∧
    (updateUpTo dt w bs j).getD i default = (update_boids dt w bs).getD i default ∧
    (∀ m, j ≤ m → (updateUpTo dt w bs j).getD m default = bs.getD m default) := by
  refine ⟨rfl, updateUpTo_succ dt w bs j, ?_, fun m hm => updateUpTo_getD_ge dt w bs default hm⟩
  exact (updateUpTo_getD_mono dt w bs default hij (le_of_lt hj)).symm

/-! A concrete three-boid configuration: three agents in a row,
40 apart, headings 10°, 20°, 30°, world 800×600, `dt = 0`.
Pairwise distances 40, 40, 80: all inside the alignment radius 90 and
outside the separation radius 30. -/

def bA : Boid := ⟨(100, 100), 10⟩
def bB : Boid := ⟨(140, 100), 20⟩
def bC : Boid := ⟨(180, 100), 30⟩

/-- `bA` after the first loop iteration: heading `(10+20+30)/3 = 20`. -/
def bA2 : Boid := ⟨(100, 100), 20⟩

/-- `bB` after the second iteration: it reads `bA`'s already-updated
heading, `(20+20+30)/3 = 70/3`. -/
noncomputable def bB2 : Boid := ⟨(140, 100), 70/3⟩

/-- `bC` after the third iteration: `(20 + 70/3 + 30)/3 = 220/9`. -/
noncomputable def bC2 : Boid := ⟨(180, 100), 220/9⟩

theorem dist_AB : distance_2d (100, 100) (140, 100) = 40 :=
  distance_2d_eval 100 100 140 100 40 (by norm_num) (by norm_num)

theorem dist_BA : distance_2d (140, 100) (100, 100) = 40 :=
  distance_2d_eval 140 100 100 100 40 (by norm_num) (by norm_num)

theorem dist_AC : distance_2d (100, 100) (180, 100) = 80 :=
  distance_2d_eval 100 100 180 100 80 (by norm_num) (by norm_num)

theorem dist_CA : distance_2d (180, 100) (100, 100) = 80 :=
  distance_2d_eval 180 100 100 100 80 (by norm_num) (by norm_num)

theorem dist_BC : distance_2d (140, 100) (180, 100) = 40 :=
  distance_2d_eval 140 100 180 100 40 (by norm_num) (by norm_num)

theorem dist_CB : distance_2d (180, 100) (140, 100) = 40 :=
  distance_2d_eval 180 100 140 100 40 (by norm_num) (by norm_num)

theorem puA : posUpd 0 (800, 600) bA = bA :=
  posUpd_zero (by norm_num [bA]) (by norm_num [bA]) (by norm_num [bA]) (by norm_num [bA])

theorem puB : posUpd 0 (800, 600) bB = bB :=
  posUpd_zero (by norm_num [bB]) (by norm_num [bB]) (by norm_num [bB]) (by norm_num [bB])

theorem puC : posUpd 0 (800, 600) bC = bC :=
  posUpd_zero (by norm_num [bC]) (by norm_num [bC]) (by norm_num [bC]) (by norm_num [bC])

theorem steerA : steer bA [bA, bB, bC] = bA2 := by
  norm_num [steer, cohFM, aliFM, sepFM, get_flockmates, average_rotation,
    bA, bB, bC, bA2, dist_AB, dist_AC, distance_2d_self,
    cohesion_distance, alignment_distance, separation_distance, size_,
    kCohesionDistanceFactor, kAlignmentDistanceFactor, kSeparationDistanceFactor]

theorem steerB : steer bB [bA2, bB, bC] = bB2 := by
  norm_num [steer, cohFM, aliFM, sepFM, get_flockmates, average_rotation,
    bA2, bB, bC, bB2, dist_BA, dist_BC, distance_2d_self,
    cohesion_distance, alignment_distance, separation_distance, size_,
    kCohesionDistanceFactor, kAlignmentDistanceFactor, kSeparationDistanceFactor]

theorem steerC : steer bC [bA2, bB2, bC] = bC2 := by
  norm_num [steer, cohFM, aliFM, sepFM, get_flockmates, average_rotation,
    bA2, bB2, bC, bC2, dist_CA, dist_CB, distance_2d_self,
    cohesion_distance, alignment_distance, separation_distance, size_,
    kCohesionDistanceFactor, kAlignmentDistanceFactor, kSeparationDistanceFactor]

theorem stepA : updateAt 0 (800, 600) [bA, bB, bC] 0 = [bA2, bB, bC] := by
  simp [updateAt, puA, steerA]

theorem stepB : updateAt 0 (800, 600) [bA2, bB, bC] 1 = [bA2, bB2, bC] := by
  simp [updateAt, puB, steerB]

theorem stepC : updateAt 0 (800, 600) [bA2, bB2, bC] 2 = [bA2, bB2, bC2] := by
  simp [updateAt, puC, steerC]

/-- The full tick on the three-in-a-row configuration. -/
theorem tickEval : update_boids 0 (800, 600) [bA, bB, bC] = [bA2, bB2, bC2] := by
  have hr : List.range ([bA, bB, bC] : List Boid).length = [0, 1, 2] := rfl
  unfold update_boids updateUpTo
  rw [hr]
  simp only [List.foldl_cons, List.foldl_nil]
  rw [stepA, stepB, stepC]

/-- **C1 (counterexample)** — Three agents with headings 10°, 20°, 30°,
pairwise 40 or 80 apart (inside the alignment radius 90, outside the
separation radius 30): after one tick it is *not* the case that every
agent's heading is the linear mean 20 — the sequential in-place update
makes the second agent average the first agent's already-updated
heading, giving `70/3`. -/
theorem alignment_three_agents_not_all_mean :
    (distance_2d bA.pos bB.pos = 40 ∧ distance_2d bA.pos bC.pos = 80 ∧
     distance_2d bB.pos bC.pos = 40) ∧
    ((separation_distance : ℝ) = 30 ∧ (alignment_distance : ℝ) = 90 ∧
     (cohesion_distance : ℝ) = 140) ∧
    (bA.rot = 10 ∧ bB.rot = 20 ∧ bC.rot = 30) ∧
    ¬ (∀ k, k < 3 → ((update_boids 0 (800, 600) [bA, bB, bC]).getD k default).rot = 20) := by
  refine ⟨⟨dist_AB, dist_AC, dist_BC⟩, ⟨?_, ?_, ?_⟩, ⟨rfl, rfl, rfl⟩, fun h => ?_⟩
  · norm_num [separation_distance, size_, kSeparationDistanceFactor]
  · norm_num [alignment_distance, size_, kAlignmentDistanceFactor]
  · norm_num [cohesion_distance, size_, kCohesionDistanceFactor]
  · have h1 := h 1 (by norm_num)
    rw [tickEval] at h1
    simp only [List.getD_cons_succ, List.getD_cons_zero] at h1
    norm_num [bB2] at h1

/-- **C1 (amended)** — Under the sequential in-place tick, the
three-in-a-row configuration with headings 10°, 20°, 30° yields
headings 20, 70/3 and 220/9: only the first-updated agent gets the
linear mean 20, later agents average already-updated headings. -/
theorem alignment_sequential_three_agents :
    update_boids 0 (800, 600) [bA, bB, bC] = [bA2, bB2, bC2] ∧
    bA2.rot = 20 ∧ bB2.rot = 70/3 ∧ bC2.rot = 220/9 ∧ (70/3 : ℝ) ≠ 20 :=
  ⟨tickEval, rfl, rfl, rfl, by norm_num⟩

/-! Two-boid configurations used as witnesses: `bD`/`bE` are 10 apart
(inside the separation radius 30), `bF`/`bG` are 40 apart (outside
separation, inside the alignment radius 90). -/

def bD : Boid := ⟨(200, 200), 0⟩
def bE : Boid := ⟨(210, 200), 40⟩
def bF : Boid := ⟨(300, 300), 10⟩
def bG : Boid := ⟨(340, 300), 30⟩

theorem dist_DE : distance_2d (200, 200) (210, 200) = 10 :=
  distance_2d_eval 200 200 210 200 10 (by norm_num) (by norm_num)

theorem dist_FG : distance_2d (300, 300) (340, 300) = 40 :=
  distance_2d_eval 300 300 340 300 40 (by norm_num) (by norm_num)

theorem cohDE : cohFM bD [bD, bE] = [bD, bE] := by
  norm_num [cohFM, get_flockmates, bD, bE, dist_DE, distance_2d_self,
    cohesion_distance, size_, kCohesionDistanceFactor]

theorem aliDE : aliFM bD [bD, bE] = [bD, bE] := by
  rw [aliFM, cohDE]
  norm_num [get_flockmates, bD, bE, dist_DE, distance_2d_self,
    alignment_distance, size_, kAlignmentDistanceFactor]

theorem sepDE : sepFM bD [bD, bE] = [bD, bE] := by
  rw [sepFM, aliDE]
  norm_num [get_flockmates, bD, bE, dist_DE, distance_2d_self,
    separation_distance, size_, kSeparationDistanceFactor]

theorem cohFG : cohFM bF [bF, bG] = [bF, bG] := by
  norm_num [cohFM, get_flockmates, bF, bG, dist_FG, distance_2d_self,
    cohesion_distance, size_, kCohesionDistanceFactor]

theorem aliFG : aliFM bF [bF, bG] = [bF, bG] := by
  rw [aliFM, cohFG]
  norm_num [get_flockmates, bF, bG, dist_FG, distance_2d_self,
    alignment_distance, size_, kAlignmentDistanceFactor]

theorem sepFG : sepFM bF [bF, bG] = [bF] := by
  rw [sepFM, aliFG]
  norm_num [get_flockmates, bF, bG, dist_FG, distance_2d_self,
    separation_distance, size_, kSeparationDistanceFactor]

theorem sequential_inplace_update_order_witness :
    (0 : ℕ) < 1 ∧ 1 < ([bA, bB, bC] : List Boid).length ∧
    (updateUpTo 0 (800, 600) [bA, bB, bC] 1).getD 0 default =
      (update_boids 0 (800, 600) [bA, bB, bC]).getD 0 default :=
  ⟨Nat.zero_lt_one, by simp,
   (sequential_inplace_update_order 0 (800, 600) [bA, bB, bC] 0 1
      Nat.zero_lt_one (by simp)).2.2.1⟩

theorem steering_priority_structure_witness :
    bF ∈ [bF, bG] ∧ (cohFM bF [bF, bG]).length ≠ 1 ∧
    1 < (cohFM bF [bF, bG]).length ∧
    (steer bF [bF, bG]).rot =
      (if 1 < (sepFM bF [bF, bG]).length then
        rad2deg (atan2 ((center_of_mass (sepFM bF [bF, bG])).2 - bF.pos.2)
                       ((center_of_mass (sepFM bF [bF, bG])).1 - bF.pos.1)) + 90 + 180
       else if 1 < (aliFM bF [bF, bG]).length then
        average_rotation (aliFM bF [bF, bG])
       else
        rad2deg (atan2 ((center_of_mass (cohFM bF [bF, bG])).2 - bF.pos.2)
                       ((center_of_mass (cohFM bF [bF, bG])).1 - bF.pos.1)) + 90) := by
  have hne : (cohFM bF [bF, bG]).length ≠ 1 := by rw [cohFG]; norm_num
  have hmem : bF ∈ [bF, bG] := by simp
  have h := (steering_priority_structure bF [bF, bG] hmem).2 hne
  exact ⟨hmem, hne, h.1, h.2⟩

theorem separation_and_cohesion_heading_formulas_witness :
    (cohFM bD [bD, bE]).length ≠ 1 ∧ 1 < (sepFM bD [bD, bE]).length ∧
    (steer bD [bD, bE]).rot =
      rad2deg (atan2 ((center_of_mass (sepFM bD [bD, bE])).2 - bD.pos.2)
                     ((center_of_mass (sepFM bD [bD, bE])).1 - bD.pos.1)) + 90 + 180 := by
  have hne : (cohFM bD [bD, bE]).length ≠ 1 := by rw [cohDE]; norm_num
  have hsep : 1 < (sepFM bD [bD, bE]).length := by rw [sepDE]; norm_num
  exact ⟨hne, hsep, (separation_and_cohesion_heading_formulas bD [bD, bE] hne).1 hsep⟩

theorem alignment_branch_linear_mean_witness :
    bF ∈ [bF, bG] ∧ (cohFM bF [bF, bG]).length ≠ 1 ∧
    ¬ 1 < (sepFM bF [bF, bG]).length ∧ 1 < (aliFM bF [bF, bG]).length ∧
    (steer bF [bF, bG]).rot =
      ((aliFM bF [bF, bG]).map Boid.rot).sum / ((aliFM bF [bF, bG]).length : ℝ) ∧
    ((aliFM bF [bF, bG]).map Boid.rot).sum / ((aliFM bF [bF, bG]).length : ℝ) = 20 := by
  have hmem : bF ∈ [bF, bG] := by simp
  have hne : (cohFM bF [bF, bG]).length ≠ 1 := by rw [cohFG]; norm_num
  have hsep : ¬ 1 < (sepFM bF [bF, bG]).length := by rw [sepFG]; norm_num
  have hali : 1 < (aliFM bF [bF, bG]).length := by rw [aliFG]; norm_num
  refine ⟨hmem, hne, hsep, hali,
    (alignment_branch_linear_mean bF [bF, bG] hmem hne hsep hali).1, ?_⟩
  rw [aliFG]
  norm_num [bF, bG]

/-- Wrapping keeps each updated coordinate inside its bound. -/
theorem posUpd_mem (dt : ℝ) (w : ℝ × ℝ) (b : Boid) (hw1 : 0 ≤ w.1) (hw2 : 0 ≤ w.2) :
    0 ≤ (posUpd dt w b).pos.1 ∧ (posUpd dt w b).pos.1 ≤ w.1 ∧
    0 ≤ (posUpd dt w b).pos.2 ∧ (posUpd dt w b).pos.2 ≤ w.2 := by
  rw [posUpd_pos]
  exact ⟨(wrapCoord_mem hw1 _).1, (wrapCoord_mem hw1 _).2,
         (wrapCoord_mem hw2 _).1, (wrapCoord_mem hw2 _).2⟩

/-- **C10** — For any start state and non-negative world bounds, the
position right after the update-and-wrap phase lies in
`[0, W] × [0, H]`; steering never touches the position; hence after a
full tick every agent of the collection lies inside the world
rectangle. -/
theorem positions_in_bounds_after_tick (dt : ℝ) (w : ℝ × ℝ) (b : Boid) (bs : List Boid)
    (hdt : 0 ≤ dt) (hw1 : 0 ≤ w.1) (hw2 : 0 ≤ w.2) :
    (0 ≤ (posUpd dt w b).pos.1 ∧ (posUpd dt w b).pos.1 ≤ w.1 ∧
     0 ≤ (posUpd dt w b).pos.2 ∧ (posUpd dt w b).pos.2 ≤ w.2) ∧
    (steer b bs).pos = b.pos ∧
    (∀ k, k < bs.length →
      0 ≤ ((update_boids dt w bs).getD k default).pos.1 ∧
      ((update_boids dt w bs).getD k default).pos.1 ≤ w.1 ∧
      0 ≤ ((update_boids dt w bs).getD k default).pos.2 ∧
      ((update_boids dt w bs).getD k default).pos.2 ≤ w.2) := by
  refine ⟨posUpd_mem dt w b hw1 hw2, steer_pos b bs, fun k hk => ?_⟩
  have h1 : (update_boids dt w bs).getD k default =
      (updateUpTo dt w bs (k + 1)).getD k default :=
    updateUpTo_getD_mono dt w bs default (Nat.lt_succ_self k) hk
  have h2 : k < (updateUpTo dt w bs k).length := by
    rw [length_updateUpTo]; omega
  rw [h1, updateUpTo_succ, updateAt_getD_eq dt w _ h2 default, steer_pos]
  exact posUpd_mem dt w _ hw1 hw2

theorem positions_in_bounds_after_tick_witness :
    (0 : ℝ) ≤ 0 ∧ (0 : ℝ) ≤ ((800 : ℝ), (600 : ℝ)).1 ∧
    (0 : ℝ) ≤ ((800 : ℝ), (600 : ℝ)).2 ∧
    (steer bA ([] : List Boid)).pos = bA.pos :=
  ⟨le_refl 0, by norm_num, by norm_num,
   (positions_in_bounds_after_tick 0 (800, 600) bA [] (le_refl 0)
      (by norm_num) (by norm_num)).2.1⟩

end BoidsSim
